import Mathlib

/-!
Shallow embedding of the core analysis pipeline of
`fake_news_detector_for_students` (`src/app.py`, class `FakeNewsDetector`).

Python strings are modelled as Lean `String`; Python floats arising in the
pipeline are exact small-denominator rationals (all indicator weights are tiny
integers, so the float comparisons of the source coincide with the exact
rational ones), modelled as `ℚ`.  The external `nltk` tokenizers
(`word_tokenize`, `sent_tokenize`) are opaque third-party functions, so the
embedding is parametrised by a `Tokenizer` record; every theorem quantifies
over it.  HTML fetching/parsing (`requests` + `BeautifulSoup`) is modelled by
a document tree and a fallible `fetch` function.
-/

namespace FakeNews

/-- Python `needle in haystack`-style prefix test on character lists. -/
def startsWithChars : List Char → List Char → Bool
  | [], _ => true
  | _ :: _, [] => false
  | a :: as, b :: bs => a == b && startsWithChars as bs

/-- Python substring containment (`needle in haystack`) on character lists. -/
def hasSubChars (n : List Char) : List Char → Bool
  | [] => n.isEmpty
  | c :: t => startsWithChars n (c :: t) || hasSubChars n t

/-- Python `needle in hay` for strings. -/
def substrOf (needle hay : String) : Bool :=
  hasSubChars needle.data hay.data

/-- Python `str.lower()` (character-wise lowercasing, as `String.toLower`). -/
def lower (s : String) : String :=
  ⟨s.data.map Char.toLower⟩

/-- Python `' '.join` / `sep.join(list)`. -/
def joinWith (sep : String) : List String → String
  | [] => ""
  | [s] => s
  | s :: t :: rest => s ++ sep ++ joinWith sep (t :: rest)

/-- Helper for Python `str.split()` (split on whitespace runs, no empties). -/
def pySplitGo : List Char → List Char → List String
  | [], acc => if acc.isEmpty then [] else [⟨acc.reverse⟩]
  | c :: rest, acc =>
    if c.isWhitespace then
      if acc.isEmpty then pySplitGo rest []
      else ⟨acc.reverse⟩ :: pySplitGo rest []
    else pySplitGo rest (c :: acc)

/-- Python `text.split()` as used in `analyze_text` for the word count. -/
def pySplit (text : String) : List String :=
  pySplitGo text.data []

/-- The external `nltk` tokenizers, abstracted: `word_tokenize` and
`sent_tokenize` from `src/app.py`. -/
structure Tokenizer where
  wordTok : String → List String
  sentTok : String → List String

/-- The feature dictionary built by `FakeNewsDetector.extract_features`. -/
structure FeatureSet where
  word_count : Nat
  sentence_count : Nat
  avg_sentence_length : ℚ
  exclamation_count : Nat
  sensational_word_count : Nat
  reliable_indicator_count : Nat
deriving DecidableEq

/-- `sensational_words` list of `extract_features` (`src/app.py:144`). -/
def sensational_words : List String :=
  ["shocking", "miracle", "secret", "breaking", "urgent"]

/-- `reliable_indicators` list of `extract_features` (`src/app.py:148`). -/
def feature_reliable_indicators : List String :=
  ["according to", "study shows", "research indicates", "experts say"]

/-- `any(sens_word in word for sens_word in sensational_words)`. -/
def sensationalTokenHit (w : String) : Bool :=
  sensational_words.any (fun p => substrOf p w)

/-- `any(rel_word in word for rel_word in reliable_indicators)`. -/
def reliableTokenHit (w : String) : Bool :=
  feature_reliable_indicators.any (fun p => substrOf p w)

/-- `FakeNewsDetector.extract_features` (`src/app.py:138-160`). -/
def extract_features (tk : Tokenizer) (text : String) : FeatureSet :=
  let words := tk.wordTok (lower text)
  let sentences := tk.sentTok text
  { word_count := words.length
    sentence_count := sentences.length
    avg_sentence_length :=
      if sentences.isEmpty then 0
      else (words.length : ℚ) / (sentences.length : ℚ)
    exclamation_count := text.data.count '!'
    sensational_word_count := (words.filter sensationalTokenHit).length
    reliable_indicator_count := (words.filter reliableTokenHit).length }

/-- The result dictionary of `FakeNewsDetector.credibility_analysis`
(`src/app.py:210-218`), with the nested `scores` dict flattened. -/
structure CredibilityVerdict where
  verdict : String
  confidence : ℚ
  color : String
  fake_score : ℚ
  reliable_score : ℚ
deriving DecidableEq

/-- `fake_indicators` list of `credibility_analysis` (`src/app.py:167-170`). -/
def fake_indicators : List String :=
  ["miracle cure", "secret they don\x27t want you to know", "conspiracy",
   "cover-up", "big pharma", "mainstream media hiding"]

/-- `reliable_indicators` list of `credibility_analysis` (`src/app.py:172-175`). -/
def cred_reliable_indicators : List String :=
  ["according to study", "research shows", "experts say", "official report",
   "peer-reviewed", "clinical trial", "scientific study"]

/-- `fake_score` after indicator counting and the exclamation penalty
(`src/app.py:178` and `src/app.py:185-186`): each matching indicator phrase
contributes 3, and 2 more are added when `exclamation_count > sentence_count`. -/
def fake_raw (tk : Tokenizer) (text : String) : Nat :=
  if (extract_features tk text).exclamation_count >
      (extract_features tk text).sentence_count then
    3 * (fake_indicators.filter (fun i => substrOf i (lower text))).length + 2
  else
    3 * (fake_indicators.filter (fun i => substrOf i (lower text))).length

/-- `reliable_score` from indicator counting (`src/app.py:179`). -/
def reliable_raw (text : String) : Nat :=
  3 * (cred_reliable_indicators.filter (fun i => substrOf i (lower text))).length

/-- `total_indicators = fake_score + reliable_score` (`src/app.py:189`). -/
def totalScore (tk : Tokenizer) (text : String) : Nat :=
  fake_raw tk text + reliable_raw text

/-- `fake_ratio` (`src/app.py:190-194`): `fake_score / total_indicators` when the
total is positive, else `0.5`. -/
def fakeRatio (tk : Tokenizer) (text : String) : ℚ :=
  if 0 < totalScore tk text then (fake_raw tk text : ℚ) / (totalScore tk text : ℚ)
  else 0.5

/-- `reliable_ratio` (`src/app.py:190-194`). -/
def reliableRatio (tk : Tokenizer) (text : String) : ℚ :=
  if 0 < totalScore tk text then (reliable_raw text : ℚ) / (totalScore tk text : ℚ)
  else 0.5

/-- `FakeNewsDetector.credibility_analysis` (`src/app.py:162-218`): verdict
selection checks the fake branch first, then reliable, else borderline. -/
def credibility_analysis (tk : Tokenizer) (text : String) : CredibilityVerdict :=
  if fakeRatio tk text > 0.6 then
    { verdict := "Fake News", confidence := fakeRatio tk text, color := "red",
      fake_score := fakeRatio tk text, reliable_score := reliableRatio tk text }
  else if reliableRatio tk text > 0.6 then
    { verdict := "Reliable", confidence := reliableRatio tk text, color := "green",
      fake_score := fakeRatio tk text, reliable_score := reliableRatio tk text }
  else
    { verdict := "Borderline/Uncertain",
      confidence := max (fakeRatio tk text) (reliableRatio tk text),
      color := "orange",
      fake_score := fakeRatio tk text, reliable_score := reliableRatio tk text }

/-- `FakeNewsDetector.generate_summary` (`src/app.py:123-136`). The
`nltk.sent_tokenize` call is the abstract tokenizer, which is total, so the
`except` fallback branch of the source is unreachable in the model. -/
def generate_summary (tk : Tokenizer) (text : String) : String :=
  if text.length < 100 then "Text too short for meaningful summary"
  else if (tk.sentTok text).length ≤ 3 then joinWith " " (tk.sentTok text)
  else joinWith " " ((tk.sentTok text).take 3)

/-- Outcome of `FakeNewsDetector.analyze_text`: either the error dictionary or
the fully populated result dictionary (`src/app.py:101-121`). -/
inductive AnalysisOutcome where
  | error (msg : String)
  | ok (summary : String) (analysis : CredibilityVerdict) (features : FeatureSet)
       (word_count : Nat) (char_count : Nat)
deriving DecidableEq

/-- `FakeNewsDetector.analyze_text` (`src/app.py:101-121`). -/
def analyze_text (tk : Tokenizer) (text : String) : AnalysisOutcome :=
  if text.length < 50 then .error "Text too short for analysis"
  else
    .ok (generate_summary tk text) (credibility_analysis tk text)
        (extract_features tk text) (pySplit text).length text.length

/-! ### HTML extraction (`extract_article_from_url`, `src/app.py:62-99`)

The parsed document (`BeautifulSoup`) is a tree of elements and text nodes;
`find` returns the first matching element in document order, `find_all` every
matching element in document order, and `get_text` the concatenated text
content. The fetch+parse step is a fallible function supplied by the
environment. -/

/-- A parsed HTML document node. -/
inductive HtmlNode where
  | element (tag : String) (children : List HtmlNode)
  | textNode (s : String)

mutual

/-- `node.get_text()`: concatenated text of all descendant text nodes. -/
def getText : HtmlNode → String
  | .textNode s => s
  | .element _ cs => getTextList cs

/-- `get_text` over a child list. -/
def getTextList : List HtmlNode → String
  | [] => ""
  | n :: ns => getText n ++ getTextList ns

end

mutual

/-- `soup.find(tag)`: first element with the tag, in document order. -/
def findFirst (tag : String) : HtmlNode → Option HtmlNode
  | .textNode _ => none
  | .element t cs =>
    if t = tag then some (.element t cs) else findFirstList tag cs

/-- `find` over a child list. -/
def findFirstList (tag : String) : List HtmlNode → Option HtmlNode
  | [] => none
  | n :: ns =>
    match findFirst tag n with
    | some r => some r
    | none => findFirstList tag ns

end

mutual

/-- `soup.find_all(tag)`: all elements with the tag, in document order. -/
def findAllTag (tag : String) : HtmlNode → List HtmlNode
  | .textNode _ => []
  | .element t cs =>
    (if t = tag then [HtmlNode.element t cs] else []) ++ findAllTagList tag cs

/-- `find_all` over a child list. -/
def findAllTagList (tag : String) : List HtmlNode → List HtmlNode
  | [] => []
  | n :: ns => findAllTag tag n ++ findAllTagList tag ns

end

/-- One step of `re.sub(r'\s+', ' ', content)`: collapse every maximal run of
whitespace characters to a single space. -/
def collapseWs : List Char → List Char
  | [] => []
  | [c] => if c.isWhitespace then [' '] else [c]
  | c1 :: c2 :: rest =>
    if c1.isWhitespace && c2.isWhitespace then collapseWs (c2 :: rest)
    else (if c1.isWhitespace then ' ' else c1) :: collapseWs (c2 :: rest)

/-- Python `str.strip()` on a character list. -/
def stripChars (l : List Char) : List Char :=
  ((l.dropWhile Char.isWhitespace).reverse.dropWhile Char.isWhitespace).reverse

/-- `re.sub(r'\s+', ' ', content).strip()` (`src/app.py:85`). -/
def normalizeWs (s : String) : String :=
  ⟨stripChars (collapseWs s.data)⟩

/-- The extraction result dictionary (`src/app.py:87-99`). -/
structure ExtractedArticle where
  title : String
  content : String
  success : Bool
  error : Option String
deriving DecidableEq

/-- The raw (pre-normalization) content string: the first `<article>`'s text if
present, else the texts of all `<p>` elements joined by single spaces
(`src/app.py:76-82`). -/
def rawContent (doc : HtmlNode) : String :=
  match findFirst "article" doc with
  | some a => getText a
  | none => joinWith " " ((findAllTag "p" doc).map getText)

/-- The success path of `extract_article_from_url` on a parsed document
(`src/app.py:71-91`). -/
def extract_from_doc (doc : HtmlNode) : ExtractedArticle :=
  let title_text :=
    match findFirst "title" doc with
    | some t => getText t
    | none => "No title found"
  let content := normalizeWs (rawContent doc)
  { title := title_text, content := content,
    success := if 100 < content.length then true else false,
    error := none }

/-- `FakeNewsDetector.extract_article_from_url` (`src/app.py:62-99`): `fetch`
models `requests.get` + `BeautifulSoup` and fails with the exception message;
the `except` branch returns the error record. -/
def extract_article_from_url (fetch : String → Except String HtmlNode)
    (url : String) : ExtractedArticle :=
  match fetch url with
  | .ok doc => extract_from_doc doc
  | .error e =>
    { title := "Error", content := "", success := false, error := some e }

/-! ### Helper lemmas -/

lemma totalScore_def (tk : Tokenizer) (text : String) :
    totalScore tk text = fake_raw tk text + reliable_raw text := rfl

lemma ratios_sum_one (tk : Tokenizer) (text : String) :
    fakeRatio tk text + reliableRatio tk text = 1 := by
  unfold fakeRatio reliableRatio
  split_ifs with h
  · have ht : ((totalScore tk text : ℚ)) ≠ 0 := Nat.cast_ne_zero.mpr h.ne'
    rw [div_add_div_same, ← Nat.cast_add, ← totalScore_def]
    exact div_self ht
  · norm_num

lemma fakeRatio_nonneg (tk : Tokenizer) (text : String) : 0 ≤ fakeRatio tk text := by
  unfold fakeRatio
  split_ifs
  · positivity
  · norm_num

lemma reliableRatio_nonneg (tk : Tokenizer) (text : String) :
    0 ≤ reliableRatio tk text := by
  unfold reliableRatio
  split_ifs
  · positivity
  · norm_num

lemma fakeRatio_le_one (tk : Tokenizer) (text : String) : fakeRatio tk text ≤ 1 := by
  have h1 := ratios_sum_one tk text
  have h2 := reliableRatio_nonneg tk text
  linarith

lemma reliableRatio_le_one (tk : Tokenizer) (text : String) :
    reliableRatio tk text ≤ 1 := by
  have h1 := ratios_sum_one tk text
  have h2 := fakeRatio_nonneg tk text
  linarith

lemma cred_fake_branch {tk : Tokenizer} {text : String}
    (h : fakeRatio tk text > 0.6) :
    credibility_analysis tk text =
      { verdict := "Fake News", confidence := fakeRatio tk text, color := "red",
        fake_score := fakeRatio tk text,
        reliable_score := reliableRatio tk text } := by
  unfold credibility_analysis
  rw [if_pos h]

lemma cred_reliable_branch {tk : Tokenizer} {text : String}
    (h1 : ¬ fakeRatio tk text > 0.6) (h2 : reliableRatio tk text > 0.6) :
    credibility_analysis tk text =
      { verdict := "Reliable", confidence := reliableRatio tk text,
        color := "green",
        fake_score := fakeRatio tk text,
        reliable_score := reliableRatio tk text } := by
  unfold credibility_analysis
  rw [if_neg h1, if_pos h2]

lemma cred_borderline_branch {tk : Tokenizer} {text : String}
    (h1 : ¬ fakeRatio tk text > 0.6) (h2 : ¬ reliableRatio tk text > 0.6) :
    credibility_analysis tk text =
      { verdict := "Borderline/Uncertain",
        confidence := max (fakeRatio tk text) (reliableRatio tk text),
        color := "orange",
        fake_score := fakeRatio tk text,
        reliable_score := reliableRatio tk text } := by
  unfold credibility_analysis
  rw [if_neg h1, if_neg h2]

lemma fake_score_eq (tk : Tokenizer) (text : String) :
    (credibility_analysis tk text).fake_score = fakeRatio tk text := by
  unfold credibility_analysis
  split_ifs <;> rfl

lemma reliable_score_eq (tk : Tokenizer) (text : String) :
    (credibility_analysis tk text).reliable_score = reliableRatio tk text := by
  unfold credibility_analysis
  split_ifs <;> rfl

lemma fakeRatio_eq_one {tk : Tokenizer} {text : String}
    (hr : reliable_raw text = 0) (hf : 0 < fake_raw tk text) :
    fakeRatio tk text = 1 := by
  unfold fakeRatio
  rw [totalScore_def, hr, Nat.add_zero, if_pos hf]
  exact div_self (Nat.cast_ne_zero.mpr hf.ne')

lemma ratios_half_of_total_zero {tk : Tokenizer} {text : String}
    (h : totalScore tk text = 0) :
    fakeRatio tk text = 1/2 ∧ reliableRatio tk text = 1/2 := by
  unfold fakeRatio reliableRatio
  rw [h]
  norm_num

/-! ### Shared concrete inputs for witnesses -/

/-- A degenerate but legitimate tokenizer: the whole text is one token and one
sentence. Used to instantiate tokenizer-generic theorems. -/
def tkTrivial : Tokenizer := ⟨fun s => [s], fun s => [s]⟩

/-! ### Claims -/

/-- C1: For every text, the rule-based scorer selects the verdict by checking
fake first: if fakeRatio > 0.6 the label is Fake with confidence = fakeRatio;
else if reliableRatio > 0.6 the label is Reliable with
confidence = reliableRatio; else the label is Borderline with
confidence = max(fakeRatio, reliableRatio); and the returned scores are
fakeScore = fakeRatio, reliableScore = reliableRatio. -/
theorem credibility_verdict_selection (tk : Tokenizer) (text : String) :
    (credibility_analysis tk text).fake_score = fakeRatio tk text ∧
    (credibility_analysis tk text).reliable_score = reliableRatio tk text ∧
    (fakeRatio tk text > 0.6 →
      (credibility_analysis tk text).verdict = "Fake News" ∧
      (credibility_analysis tk text).confidence = fakeRatio tk text) ∧
    (¬ fakeRatio tk text > 0.6 → reliableRatio tk text > 0.6 →
      (credibility_analysis tk text).verdict = "Reliable" ∧
      (credibility_analysis tk text).confidence = reliableRatio tk text) ∧
    (¬ fakeRatio tk text > 0.6 → ¬ reliableRatio tk text > 0.6 →
      (credibility_analysis tk text).verdict = "Borderline/Uncertain" ∧
      (credibility_analysis tk text).confidence =
        max (fakeRatio tk text) (reliableRatio tk text)) := by
  refine ⟨fake_score_eq tk text, reliable_score_eq tk text, ?_, ?_, ?_⟩
  · intro h
    rw [cred_fake_branch h]
    exact ⟨rfl, rfl⟩
  · intro h1 h2
    rw [cred_reliable_branch h1 h2]
    exact ⟨rfl, rfl⟩
  · intro h1 h2
    rw [cred_borderline_branch h1 h2]
    exact ⟨rfl, rfl⟩

/-- A text hitting the fake-indicator phrases `conspiracy` and `big pharma`
and no reliable-indicator phrase. -/
def tFakeC1 : String :=
  "The conspiracy is plain to see: big pharma wants this hidden from everyone."

/-- Witness for C1 at a concrete text whose fake ratio is 1. -/
theorem credibility_verdict_selection_witness :
    (credibility_analysis tkTrivial tFakeC1).verdict = "Fake News" ∧
    (credibility_analysis tkTrivial tFakeC1).confidence = 1 := by
  have hone : fakeRatio tkTrivial tFakeC1 = 1 :=
    fakeRatio_eq_one (by decide) (by decide)
  have h := (credibility_verdict_selection tkTrivial tFakeC1).2.2.1
    (by rw [hone]; norm_num)
  rw [hone] at h
  exact h

/-- C2: For every text, the CredibilityVerdict produced by the rule-based
scorer satisfies fakeScore + reliableScore = 1 (here exactly, so in particular
within 1e-9); its label is never Error in the rule-based path; when the total
indicator weight is positive the ratios are complementary fractions of the
total, and when it is zero both are 0.5. -/
theorem scores_complementary (tk : Tokenizer) (text : String) :
    (credibility_analysis tk text).fake_score +
      (credibility_analysis tk text).reliable_score = 1 ∧
    (0 < totalScore tk text →
      (credibility_analysis tk text).fake_score =
        (fake_raw tk text : ℚ) / (totalScore tk text : ℚ) ∧
      (credibility_analysis tk text).reliable_score =
        (reliable_raw text : ℚ) / (totalScore tk text : ℚ)) ∧
    (totalScore tk text = 0 →
      (credibility_analysis tk text).fake_score = 1/2 ∧
      (credibility_analysis tk text).reliable_score = 1/2) := by
  rw [fake_score_eq, reliable_score_eq]
  refine ⟨ratios_sum_one tk text, ?_, ?_⟩
  · intro h
    unfold fakeRatio reliableRatio
    rw [if_pos h, if_pos h]
    exact ⟨rfl, rfl⟩
  · intro h
    exact ratios_half_of_total_zero h

/-- A text with no indicator hits on either side and no exclamation marks. -/
def tPlain : String :=
  "Nothing remarkable happened in the quiet town today, and people went home."

/-- Witness for C2: zero total indicator weight gives the 0.5/0.5 split. -/
theorem scores_complementary_witness :
    (credibility_analysis tkTrivial tPlain).fake_score = 1/2 ∧
    (credibility_analysis tkTrivial tPlain).reliable_score = 1/2 :=
  (scores_complementary tkTrivial tPlain).2.2 (by decide)

/-- C10: For every text, the confidence returned by the rule-based scorer lies
in the closed interval [1/2, 1]: in every branch the chosen value is one of the
two ratios or their maximum, the ratios are non-negative and sum to 1, and the
scorer never reports a confidence below one half. -/
theorem confidence_in_range (tk : Tokenizer) (text : String) :
    1/2 ≤ (credibility_analysis tk text).confidence ∧
    (credibility_analysis tk text).confidence ≤ 1 := by
  have hsum := ratios_sum_one tk text
  have hf0 := fakeRatio_nonneg tk text
  have hr0 := reliableRatio_nonneg tk text
  have hf1 := fakeRatio_le_one tk text
  have hr1 := reliableRatio_le_one tk text
  by_cases h1 : fakeRatio tk text > 0.6
  · rw [cred_fake_branch h1]
    dsimp only
    constructor <;> [linarith [show (0.6:ℚ) = 3/5 by norm_num]; exact hf1]
  · by_cases h2 : reliableRatio tk text > 0.6
    · rw [cred_reliable_branch h1 h2]
      dsimp only
      constructor <;> [linarith [show (0.6:ℚ) = 3/5 by norm_num]; exact hr1]
    · rw [cred_borderline_branch h1 h2]
      dsimp only
      constructor
      · rcases le_total (fakeRatio tk text) (reliableRatio tk text) with hc | hc
        · rw [max_eq_right hc]; linarith
        · rw [max_eq_left hc]; linarith
      · exact max_le hf1 hr1

lemma features_sentence_count (tk : Tokenizer) (text : String) :
    (extract_features tk text).sentence_count = (tk.sentTok text).length := rfl

lemma features_word_count (tk : Tokenizer) (text : String) :
    (extract_features tk text).word_count = (tk.wordTok (lower text)).length := rfl

lemma features_avg (tk : Tokenizer) (text : String) :
    (extract_features tk text).avg_sentence_length =
      if (tk.sentTok text).isEmpty then 0
      else ((tk.wordTok (lower text)).length : ℚ) /
        ((tk.sentTok text).length : ℚ) := rfl

/-- A text of more than 100 characters with no scoring-indicator hits. -/
def tLong : String :=
  "Throughout the week the weather stayed calm over the whole region, and the valley towns reported entirely ordinary days."

/-- C3: For every text of length < 50 characters, analyze returns the
input-too-short error and produces no result record; for every text of length
at least 50, analyze returns the fully populated result record (summary,
verdict, features, word count and char count) and never a partial one. -/
theorem analyze_text_totality (tk : Tokenizer) (text : String) :
    (text.length < 50 →
      analyze_text tk text = .error "Text too short for analysis") ∧
    (50 ≤ text.length →
      analyze_text tk text =
        .ok (generate_summary tk text) (credibility_analysis tk text)
          (extract_features tk text) (pySplit text).length text.length) := by
  constructor
  · intro h
    unfold analyze_text
    rw [if_pos h]
  · intro h
    unfold analyze_text
    rw [if_neg (by omega)]

/-- Witness for C3 on a short and on a long concrete text. -/
theorem analyze_text_totality_witness :
    analyze_text tkTrivial "hi" = .error "Text too short for analysis" ∧
    analyze_text tkTrivial tLong =
      .ok (generate_summary tkTrivial tLong) (credibility_analysis tkTrivial tLong)
        (extract_features tkTrivial tLong) (pySplit tLong).length tLong.length :=
  ⟨(analyze_text_totality tkTrivial "hi").1 (by decide),
   (analyze_text_totality tkTrivial tLong).2 (by decide)⟩

/-- C4: For every text, avgSentenceLength = 0 exactly when sentenceCount = 0,
and otherwise avgSentenceLength = wordCount / sentenceCount; the division is
guarded and the function is total. The hypothesis records the property of the
real `nltk` tokenizers that a text with at least one sentence has at least one
word token. -/
theorem avg_sentence_length_guard (tk : Tokenizer) (text : String)
    (h : tk.sentTok text ≠ [] → tk.wordTok (lower text) ≠ []) :
    ((extract_features tk text).avg_sentence_length = 0 ↔
      (extract_features tk text).sentence_count = 0) ∧
    ((extract_features tk text).sentence_count ≠ 0 →
      (extract_features tk text).avg_sentence_length =
        ((extract_features tk text).word_count : ℚ) /
          ((extract_features tk text).sentence_count : ℚ)) := by
  rw [features_avg, features_sentence_count, features_word_count]
  rcases hs : tk.sentTok text with _ | ⟨s, ss⟩
  · simp
  · have hw : tk.wordTok (lower text) ≠ [] := by
      apply h
      rw [hs]
      exact List.cons_ne_nil s ss
    have hwl : ((tk.wordTok (lower text)).length : ℚ) ≠ 0 := by
      exact_mod_cast fun h0 => hw (List.length_eq_zero.mp h0)
    have hsl : (((s :: ss).length : ℚ)) ≠ 0 := Nat.cast_ne_zero.mpr (by simp)
    constructor
    · rw [if_neg (by simp)]
      constructor
      · intro h0
        rcases div_eq_zero_iff.mp h0 with h0 | h0
        · exact absurd h0 hwl
        · exact absurd h0 hsl
      · intro h0
        exact absurd h0 (by simp)
    · intro _
      rw [if_neg (by simp)]

/-- Witness for C4 with a nonempty sentence segmentation. -/
theorem avg_sentence_length_guard_witness :
    ((extract_features tkTrivial tPlain).avg_sentence_length = 0 ↔
      (extract_features tkTrivial tPlain).sentence_count = 0) :=
  (avg_sentence_length_guard tkTrivial tPlain (by decide)).1

/-- C7: For every text: if its length is < 100 characters the Summarizer
returns the fixed too-short string; otherwise if the sentence segmentation has
at most 3 sentences it returns all of them joined by single spaces; otherwise
exactly the first 3 joined by single spaces — in particular a 4-sentence text
yields only the first 3. -/
theorem generate_summary_spec (tk : Tokenizer) (text : String) :
    (text.length < 100 →
      generate_summary tk text = "Text too short for meaningful summary") ∧
    (100 ≤ text.length → (tk.sentTok text).length ≤ 3 →
      generate_summary tk text = joinWith " " (tk.sentTok text)) ∧
    (100 ≤ text.length → 3 < (tk.sentTok text).length →
      generate_summary tk text = joinWith " " ((tk.sentTok text).take 3)) ∧
    (∀ s1 s2 s3 s4 : String, 100 ≤ text.length →
      tk.sentTok text = [s1, s2, s3, s4] →
      generate_summary tk text = joinWith " " [s1, s2, s3]) := by
  refine ⟨?_, ?_, ?_, ?_⟩
  · intro h
    unfold generate_summary
    rw [if_pos h]
  · intro h hle
    unfold generate_summary
    rw [if_neg (by omega), if_pos hle]
  · intro h hgt
    unfold generate_summary
    rw [if_neg (by omega), if_neg (by omega)]
  · intro s1 s2 s3 s4 h hs
    unfold generate_summary
    rw [if_neg (by omega), hs]
    rw [if_neg (by simp)]
    rfl

/-- A tokenizer whose sentence segmentation always reports four sentences. -/
def tkFour : Tokenizer :=
  ⟨fun s => [s],
   fun _ => ["First point made.", "Second point made.", "Third point made.",
             "Fourth point made."]⟩

/-- Witness for C7: a 4-sentence segmentation keeps only the first 3. -/
theorem generate_summary_spec_witness :
    generate_summary tkFour tLong =
      joinWith " "
        ["First point made.", "Second point made.", "Third point made."] :=
  (generate_summary_spec tkFour tLong).2.2.2 _ _ _ _ (by decide) rfl

lemma startsWithChars_mem {n h : List Char}
    (hs : startsWithChars n h = true) : ∀ c ∈ n, c ∈ h := by
  induction n generalizing h with
  | nil =>
    intro c hc
    simp at hc
  | cons a as ih =>
    cases h with
    | nil => simp [startsWithChars] at hs
    | cons b bs =>
      rw [startsWithChars, Bool.and_eq_true, beq_iff_eq] at hs
      intro c hc
      rcases List.mem_cons.mp hc with hc | hc
      · rw [hc, hs.1]
        exact List.mem_cons_self b bs
      · exact List.mem_cons_of_mem b (ih hs.2 c hc)

lemma hasSubChars_mem {n h : List Char}
    (hs : hasSubChars n h = true) : ∀ c ∈ n, c ∈ h := by
  induction h with
  | nil =>
    rw [hasSubChars, List.isEmpty_iff] at hs
    intro c hc
    rw [hs] at hc
    simp at hc
  | cons b bs ih =>
    rw [hasSubChars, Bool.or_eq_true] at hs
    rcases hs with hs | hs
    · exact startsWithChars_mem hs
    · exact fun c hc => List.mem_cons_of_mem b (ih hs c hc)

lemma substrOf_mem {n h : String}
    (hs : substrOf n h = true) : ∀ c ∈ n.data, c ∈ h.data :=
  hasSubChars_mem hs

/-- C8: For every text, reliableIndicatorCount equals the number of lower-cased
tokens containing one of the four multi-word phrases as a substring of that
single token; since every phrase contains a space, a token without a space is
never counted. -/
theorem reliable_indicator_token_matching (tk : Tokenizer) (text : String) :
    (extract_features tk text).reliable_indicator_count =
      ((tk.wordTok (lower text)).filter reliableTokenHit).length ∧
    ∀ w : String, (∀ c ∈ w.data, c ≠ ' ') → reliableTokenHit w = false := by
  refine ⟨rfl, ?_⟩
  intro w hw
  rw [reliableTokenHit, List.any_eq_false]
  intro p hp
  have hsp : ' ' ∈ p.data := by
    fin_cases hp <;> decide
  intro hcontra
  exact hw ' ' (substrOf_mem hcontra ' ' hsp) rfl

/-- Witness for C8: a spaceless token is never a reliable-indicator hit. -/
theorem reliable_indicator_token_matching_witness :
    reliableTokenHit "accordingto" = false :=
  (reliable_indicator_token_matching tkTrivial "").2 "accordingto" (by decide)

/-- The scenario text of C9. -/
def txt9 : String := "SHOCKING secret conspiracy! Big Pharma cover-up!!!"

/-- C9 counterexample: on the scenario text the feature extractor counts 4
exclamation marks, not the 3 asserted by the claim. -/
theorem shocking_scenario_exclamations_not_three :
    (extract_features tkTrivial txt9).exclamation_count ≠ 3 := by decide

/-- C9 amended: on the scenario text the scorer counts 4 exclamation marks and
three fake-indicator phrase hits; whenever the sentence segmentation yields
fewer than 4 sentences the exclamation penalty applies (raw fake score
3·3 + 2); in every case fakeRatio = 1 > 0.6 and the verdict is Fake. -/
theorem shocking_scenario_amended (tk : Tokenizer) :
    (extract_features tk txt9).exclamation_count = 4 ∧
    ((tk.sentTok txt9).length < 4 → fake_raw tk txt9 = 3 * 3 + 2) ∧
    fakeRatio tk txt9 = 1 ∧
    fakeRatio tk txt9 > 0.6 ∧
    (credibility_analysis tk txt9).verdict = "Fake News" := by
  have hexc : (extract_features tk txt9).exclamation_count = 4 := by
    show txt9.data.count '!' = 4
    decide
  have hbase :
      (fake_indicators.filter (fun i => substrOf i (lower txt9))).length = 3 := by
    decide
  have hrel : reliable_raw txt9 = 0 := by decide
  have hfr : 0 < fake_raw tk txt9 := by
    unfold fake_raw
    rw [hbase]
    split_ifs <;> omega
  have hone : fakeRatio tk txt9 = 1 := fakeRatio_eq_one hrel hfr
  have hgt : fakeRatio tk txt9 > 0.6 := by
    rw [hone]
    norm_num
  refine ⟨hexc, ?_, hone, hgt, ?_⟩
  · intro hlen
    have hc : (extract_features tk txt9).sentence_count <
        (extract_features tk txt9).exclamation_count := by
      rw [hexc]
      exact hlen
    unfold fake_raw
    rw [if_pos hc, hbase]
  · rw [cred_fake_branch hgt]

/-- Witness for the amended C9 with a one-sentence segmentation. -/
theorem shocking_scenario_amended_witness :
    fake_raw tkTrivial txt9 = 3 * 3 + 2 :=
  (shocking_scenario_amended tkTrivial).2.1 (by decide)

/-! ### Whitespace-normalization lemmas -/

lemma collapseWs_head_not_ws {c : Char} (h : c.isWhitespace = false)
    (rest : List Char) : (collapseWs (c :: rest)).head? = some c := by
  cases rest with
  | nil =>
    rw [collapseWs, if_neg (by simp [h])]
    rfl
  | cons d ds =>
    rw [collapseWs, if_neg (by simp [h])]
    simp [h]

lemma collapseWs_ws_eq_space :
    ∀ l : List Char, ∀ c ∈ collapseWs l, c.isWhitespace = true → c = ' ' := by
  intro l
  induction l using collapseWs.induct with
  | case1 =>
    intro c hc
    simp [collapseWs] at hc
  | case2 c hc =>
    intro x hx hws
    rw [collapseWs, if_pos hc] at hx
    simpa using hx
  | case3 c hc =>
    intro x hx hws
    rw [collapseWs, if_neg hc] at hx
    simp at hx
    rw [hx] at hws
    exact absurd hws hc
  | case4 c1 c2 rest hcond ih =>
    rw [collapseWs, if_pos hcond]
    exact ih
  | case5 c1 c2 rest hcond ih =>
    intro x hx hws
    rw [collapseWs, if_neg hcond] at hx
    rcases List.mem_cons.mp hx with hx | hx
    · by_cases hc1 : c1.isWhitespace = true
      · rw [hx, if_pos hc1]
      · rw [hx, if_neg hc1] at hws
        exact absurd hws hc1
    · exact ih x hx hws

lemma collapseWs_chain' :
    ∀ l : List Char,
      List.Chain' (fun a b => ¬(a.isWhitespace = true ∧ b.isWhitespace = true))
        (collapseWs l) := by
  intro l
  induction l using collapseWs.induct with
  | case1 =>
    simp [collapseWs]
  | case2 c hc =>
    rw [collapseWs, if_pos hc]
    simp
  | case3 c hc =>
    rw [collapseWs, if_neg hc]
    simp
  | case4 c1 c2 rest hcond ih =>
    rw [collapseWs, if_pos hcond]
    exact ih
  | case5 c1 c2 rest hcond ih =>
    rw [collapseWs, if_neg hcond]
    by_cases hc1 : c1.isWhitespace = true
    · have hc2 : c2.isWhitespace = false := by
        simp [hc1] at hcond
        exact hcond
      rw [if_pos hc1, List.chain'_cons']
      refine ⟨?_, ih⟩
      intro y hy
      rw [collapseWs_head_not_ws hc2 rest] at hy
      simp at hy
      rw [← hy]
      simp [hc2]
    · rw [if_neg hc1, List.chain'_cons']
      refine ⟨?_, ih⟩
      intro y _
      simp [hc1]

lemma exists_append_dropWhile (p : Char → Bool) :
    ∀ l : List Char, ∃ s, s ++ l.dropWhile p = l := by
  intro l
  induction l with
  | nil => exact ⟨[], rfl⟩
  | cons a as ih =>
    by_cases hpa : p a = true
    · rcases ih with ⟨s, hs⟩
      refine ⟨a :: s, ?_⟩
      rw [List.dropWhile_cons, if_pos hpa]
      simpa using hs
    · refine ⟨[], ?_⟩
      rw [List.dropWhile_cons, if_neg hpa]
      rfl

lemma exists_stripChars_decomp (l : List Char) :
    ∃ s t, l = s ++ stripChars l ++ t := by
  rcases exists_append_dropWhile Char.isWhitespace l with ⟨s1, hs1⟩
  rcases exists_append_dropWhile Char.isWhitespace
    (l.dropWhile Char.isWhitespace).reverse with ⟨s2, hs2⟩
  refine ⟨s1, s2.reverse, ?_⟩
  unfold stripChars
  have hd1 : l.dropWhile Char.isWhitespace =
      ((l.dropWhile Char.isWhitespace).reverse.dropWhile Char.isWhitespace).reverse
        ++ s2.reverse := by
    have := congrArg List.reverse hs2
    simpa [List.reverse_append] using this.symm
  calc l = s1 ++ l.dropWhile Char.isWhitespace := hs1.symm
    _ = s1 ++
        (((l.dropWhile Char.isWhitespace).reverse.dropWhile
            Char.isWhitespace).reverse ++ s2.reverse) := by rw [← hd1]
    _ = s1 ++
        ((l.dropWhile Char.isWhitespace).reverse.dropWhile
            Char.isWhitespace).reverse ++ s2.reverse := by
          rw [List.append_assoc]

lemma chain'_of_append_middle {α : Type} {R : α → α → Prop} {s x t : List α}
    (h : List.Chain' R (s ++ x ++ t)) : List.Chain' R x :=
  (List.chain'_append.mp (List.chain'_append.mp h).1).2.1

lemma head?_dropWhile_not (p : Char → Bool) :
    ∀ (l : List Char) (c : Char), (l.dropWhile p).head? = some c → p c = false := by
  intro l
  induction l with
  | nil =>
    intro c hc
    simp [List.dropWhile] at hc
  | cons a as ih =>
    intro c hc
    rw [List.dropWhile_cons] at hc
    split_ifs at hc with hpa
    · exact ih c hc
    · simp at hc
      rw [← hc]
      simpa using hpa

lemma getLast?_stripChars (l : List Char) (c : Char)
    (h : (stripChars l).getLast? = some c) : c.isWhitespace = false := by
  unfold stripChars at h
  rw [List.getLast?_reverse] at h
  exact head?_dropWhile_not Char.isWhitespace _ c h

lemma head?_stripChars (l : List Char) (c : Char)
    (h : (stripChars l).head? = some c) : c.isWhitespace = false := by
  unfold stripChars at h
  rw [List.head?_reverse] at h
  set d2 := (l.dropWhile Char.isWhitespace).reverse.dropWhile Char.isWhitespace
    with hd2
  have hne : d2 ≠ [] := by
    intro h0
    rw [h0] at h
    simp at h
  rcases exists_append_dropWhile Char.isWhitespace
    (l.dropWhile Char.isWhitespace).reverse with ⟨s2, hs2⟩
  rw [← hd2] at hs2
  have hlast : ((l.dropWhile Char.isWhitespace).reverse).getLast? = some c := by
    rw [← hs2, List.getLast?_append_of_ne_nil s2 hne]
    exact h
  rw [List.getLast?_reverse] at hlast
  exact head?_dropWhile_not Char.isWhitespace _ c hlast

lemma normalizeWs_data (s : String) :
    (normalizeWs s).data = stripChars (collapseWs s.data) := rfl

lemma mem_stripChars {l : List Char} {c : Char} (h : c ∈ stripChars l) : c ∈ l := by
  rcases exists_stripChars_decomp l with ⟨s, t, hdec⟩
  rw [hdec]
  simp [h]

/-- C5: For every parsed HTML document, the content is the text of the first
article element if one exists, otherwise the texts of all paragraph elements
joined in document order; the content is whitespace-normalized (whitespace
runs collapsed to one space, ends trimmed); and the success flag is true iff
the normalized content length exceeds 100 characters. -/
theorem extract_content_normalized (doc : HtmlNode) :
    (extract_from_doc doc).content = normalizeWs (rawContent doc) ∧
    (∀ a, findFirst "article" doc = some a → rawContent doc = getText a) ∧
    (findFirst "article" doc = none →
      rawContent doc = joinWith " " ((findAllTag "p" doc).map getText)) ∧
    ((extract_from_doc doc).success = true ↔
      100 < (extract_from_doc doc).content.length) ∧
    (∀ c ∈ (extract_from_doc doc).content.data,
      c.isWhitespace = true → c = ' ') ∧
    List.Chain' (fun a b => ¬(a.isWhitespace = true ∧ b.isWhitespace = true))
      (extract_from_doc doc).content.data ∧
    (∀ c, (extract_from_doc doc).content.data.head? = some c →
      c.isWhitespace = false) ∧
    (∀ c, (extract_from_doc doc).content.data.getLast? = some c →
      c.isWhitespace = false) := by
  have hcontent : (extract_from_doc doc).content = normalizeWs (rawContent doc) :=
    rfl
  have hdata : (extract_from_doc doc).content.data =
      stripChars (collapseWs (rawContent doc).data) := rfl
  refine ⟨hcontent, ?_, ?_, ?_, ?_, ?_, ?_, ?_⟩
  · intro a ha
    simp only [rawContent, ha]
  · intro ha
    simp only [rawContent, ha]
  · have hsucc : (extract_from_doc doc).success =
        if 100 < (extract_from_doc doc).content.length then true else false := rfl
    rw [hsucc]
    split_ifs with h
    · simp [h]
    · simp [h]
  · intro c hc
    rw [hdata] at hc
    exact collapseWs_ws_eq_space (rawContent doc).data c (mem_stripChars hc)
  · rw [hdata]
    rcases exists_stripChars_decomp (collapseWs (rawContent doc).data) with
      ⟨s, t, hdec⟩
    exact chain'_of_append_middle
      (hdec ▸ collapseWs_chain' (rawContent doc).data)
  · intro c hc
    rw [hdata] at hc
    exact head?_stripChars _ c hc
  · intro c hc
    rw [hdata] at hc
    exact getLast?_stripChars _ c hc

/-- A sample article node with un-normalized inner whitespace. -/
def artW : HtmlNode := .element "article" [.textNode "  hello   world  "]

/-- A sample document wrapping `artW`. -/
def docW : HtmlNode := .element "html" [artW]

/-- Witness for C5 on a concrete document with an article element. -/
theorem extract_content_normalized_witness :
    rawContent docW = getText artW ∧
    ((extract_from_doc docW).success = true ↔
      100 < (extract_from_doc docW).content.length) :=
  ⟨(extract_content_normalized docW).2.1 artW rfl,
   (extract_content_normalized docW).2.2.2.1⟩

/-- C6: For every URL and every failing fetch (network, parsing or timeout
failure, modelled as the fallible fetch step), the extractor returns the fixed
error record with title "Error", empty content, success false and the failure
message; the function is total, so no exception crosses the boundary. -/
theorem extract_error_boundary (fetch : String → Except String HtmlNode)
    (url : String) (e : String) (h : fetch url = .error e) :
    extract_article_from_url fetch url =
      { title := "Error", content := "", success := false, error := some e } := by
  unfold extract_article_from_url
  rw [h]

/-- A fetch that always fails, as on a network timeout. -/
def fetchFail : String → Except String HtmlNode :=
  fun _ => .error "HTTPSConnectionPool: read timed out"

/-- Witness for C6 on a concrete failing fetch. -/
theorem extract_error_boundary_witness :
    extract_article_from_url fetchFail "https://example.com/story" =
      { title := "Error", content := "", success := false,
        error := some "HTTPSConnectionPool: read timed out" } :=
  extract_error_boundary fetchFail "https://example.com/story" _ rfl

end FakeNews
